import Mathlib

/-!
Verification development for the `vitest-ctrf-json-reporter` repository.

The repository contains two near-duplicate copies of the reporter:
`src/generate-report.ts` and an unnamed build sibling (here `part_000`).
Both are embedded below; the richer copy (`part_000`, which additionally
extracts a source line number from stack traces) provides the primary
definitions, and the `...Ts` variants mirror `src/generate-report.ts`
where the two copies differ.

Machine integers in the source are JS numbers used only as non-negative
counters, durations and epoch-millisecond timestamps; they are modelled
as `Nat`.  JS `undefined`-able fields are `Option`; a field assigned
`undefined` (dropped by `JSON.stringify`) is `none`.
-/

/-! ## Data model -/

/-- The fixed CTRF status vocabulary (`CtrfTestState`). -/
inductive CtrfTestState where
  | passed
  | failed
  | skipped
  | pending
  | other
deriving DecidableEq, Repr

/-- One associated error of a failed vitest result: `message` text and an
optional `stack` trace text (JS `stack?: string`). -/
structure TestError where
  message : String
  stack : Option String
deriving DecidableEq, Repr

/-- The native vitest result object: a native status string `state` and the
associated errors (only consulted when `state = "failed"`). -/
structure TestResult where
  state : String
  errors : List TestError
deriving DecidableEq, Repr

/-- The `testCase.diagnostic()` payload: duration (ms), retry count, flaky flag. -/
structure Diagnostic where
  duration : Nat
  retryCount : Nat
  flaky : Bool
deriving DecidableEq, Repr

/-- The host runner's test-case object, as consumed by the reporter:
`fullName`, `diagnostic()` (possibly `undefined`), `result()`, and
`module.moduleId` (the test's own source file path, possibly empty). -/
structure TestCase where
  fullName : String
  diagnostic : Option Diagnostic
  result : TestResult
  moduleId : String
deriving DecidableEq, Repr

/-- A CTRF test record.  `name`, `duration`, `status` are always set; the
optional diagnostics group is populated only when minimal mode is off.
`none` models a field that is absent from the serialized JSON. -/
structure CtrfTest where
  name : String
  duration : Nat
  status : CtrfTestState
  message : Option String := none
  trace : Option String := none
  line : Option Nat := none
  rawStatus : Option String := none
  type : Option String := none
  filePath : Option String := none
  retries : Option Nat := none
  flaky : Option Bool := none
  suite : Option String := none
deriving DecidableEq, Repr

/-- CTRF summary counters and timestamps. -/
structure Summary where
  tests : Nat
  passed : Nat
  failed : Nat
  pending : Nat
  skipped : Nat
  other : Nat
  start : Nat
  stop : Nat
deriving DecidableEq, Repr

/-- Environment metadata block; each field present iff supplied. -/
structure CtrfEnvironment where
  appName : Option String := none
  appVersion : Option String := none
  osPlatform : Option String := none
  osRelease : Option String := none
  osVersion : Option String := none
  buildName : Option String := none
  buildNumber : Option String := none
  buildUrl : Option String := none
  repositoryName : Option String := none
  repositoryUrl : Option String := none
  branchName : Option String := none
  testEnvironment : Option String := none
deriving DecidableEq, Repr

/-- The `results` object of a CTRF report document. -/
structure Results where
  toolName : String
  summary : Summary
  tests : List CtrfTest
  environment : Option CtrfEnvironment
deriving DecidableEq, Repr

/-- Caller-supplied reporter options (every field optional). -/
structure ReporterConfigOptions where
  outputFile : Option String := none
  outputDir : Option String := none
  minimal : Option Bool := none
  testType : Option String := none
  appName : Option String := none
  appVersion : Option String := none
  osPlatform : Option String := none
  osRelease : Option String := none
  osVersion : Option String := none
  buildName : Option String := none
  buildNumber : Option String := none
  buildUrl : Option String := none
  repositoryName : Option String := none
  repositoryUrl : Option String := none
  branchName : Option String := none
  testEnvironment : Option String := none
deriving DecidableEq, Repr

/-- The `this.reporterConfigOptions` after the constructor's `??` resolution:
the four behavioural options get their defaults, the environment options
are passed through unchanged (`x ?? undefined` is the identity). -/
structure ResolvedConfig where
  outputFile : String
  outputDir : String
  minimal : Bool
  testType : String
  appName : Option String
  appVersion : Option String
  osPlatform : Option String
  osRelease : Option String
  osVersion : Option String
  buildName : Option String
  buildNumber : Option String
  buildUrl : Option String
  repositoryName : Option String
  repositoryUrl : Option String
  branchName : Option String
  testEnvironment : Option String
deriving DecidableEq, Repr

/-- Constructor option resolution (`reporterOptions?.x ?? default`). -/
def resolveConfig (o : ReporterConfigOptions) : ResolvedConfig :=
  { outputFile := o.outputFile.getD "ctrf-report.json"
    outputDir := o.outputDir.getD "ctrf"
    minimal := o.minimal.getD false
    testType := o.testType.getD "unit"
    appName := o.appName
    appVersion := o.appVersion
    osPlatform := o.osPlatform
    osRelease := o.osRelease
    osVersion := o.osVersion
    buildName := o.buildName
    buildNumber := o.buildNumber
    buildUrl := o.buildUrl
    repositoryName := o.repositoryName
    repositoryUrl := o.repositoryUrl
    branchName := o.branchName
    testEnvironment := o.testEnvironment }

/-! ## String helpers (embedding JS built-ins used by the source) -/

/-- The `String.prototype.endsWith`, via character lists. -/
def strEndsWith (s t : String) : Bool :=
  let n := s.toList.length
  let m := t.toList.length
  decide (m ≤ n) && (s.toList.drop (n - m) == t.toList)

/-- The `setFilename`: append `.json` unless the name already ends in it. -/
def setFilename (filename : String) : String :=
  if strEndsWith filename ".json" then filename else filename ++ ".json"

/-- The `s.split('\n')` on character lists (the empty string splits to `[[]]`,
matching JS `"".split('\n') == [""]`). -/
def splitOnNl : List Char → List (List Char)
  | [] => [[]]
  | '\n' :: rest =>
    [] :: splitOnNl rest
  | c :: rest =>
    match splitOnNl rest with
    | [] => [[c]]
    | l :: ls => (c :: l) :: ls

/-- The `+digits` for a nonempty decimal digit string. -/
def natOfDigits (ds : List Char) : Nat :=
  ds.foldl (fun n c => n * 10 + (c.toNat - 48)) 0

/-! ## `path.resolve` (POSIX model)

`path.resolve(p)` resolves `p` against the process working directory and
normalizes `.`/`..`/empty segments (`..` at the root is clamped).  The
working directory is an explicit parameter `cwd` here. -/

/-- Split on `/`. -/
def splitOnSlash : List Char → List (List Char)
  | [] => [[]]
  | '/' :: rest =>
    [] :: splitOnSlash rest
  | c :: rest =>
    match splitOnSlash rest with
    | [] => [[c]]
    | l :: ls => (c :: l) :: ls

/-- Normalize path segments: drop empty and `.`, pop on `..`. -/
def normSegs (segs : List String) : List String :=
  segs.foldl
    (fun acc seg =>
      if seg = "" ∨ seg = "." then acc
      else if seg = ".." then acc.dropLast
      else acc ++ [seg])
    []

/-- Whether a path is absolute (starts with `/`). -/
def isAbsPath (p : String) : Bool :=
  match p.toList with
  | '/' :: _ => true
  | _ => false

/-- The `path.resolve` against a working directory `cwd` (assumed absolute). -/
def resolvePath (cwd p : String) : String :=
  let full := if isAbsPath p then p else cwd ++ "/" ++ p
  "/" ++ String.intercalate "/" (normSegs ((splitOnSlash full.toList).map String.mk))

/-! ## Stack-trace parsing (`parseStackTrace`, `part_000`)

The source matches each line against the stacktrace-parser Node regex

  `^\s*at (?:((?:\[object object\])?[^\\/]+(?: \[as \S+\])?) )?\(?(.*?):(\d+)(?::(\d+))?\)?\s*$` (flag `i`)

and keeps capture group 2 (the file, `|| null` when empty) and group 3
(the line digits).  The matcher below embeds this pattern with explicit
backtracking in JS preference order: earlier choice points are explored
first, greedy pieces prefer longer consumption, the lazy `(.*?)` prefers
shorter, and optional groups prefer being taken. -/

/-- One parsed stack frame. -/
structure Frame where
  file : Option String
  lineNumber : Option Nat
deriving DecidableEq, Repr

/-- JS `\\s` whitespace class (ASCII whitespace plus the Unicode
space separators, NBSP, line/paragraph separators, NNBSP, MMSP,
ideographic space and BOM). -/
def isJsWs (c : Char) : Bool :=
  c = ' ' || c = '\t' || c = '\n' || c = '\r' ||
  c.toNat = 0x0b || c.toNat = 0x0c ||
  c.toNat = 0xa0 || c.toNat = 0x1680 ||
  (0x2000 <= c.toNat && c.toNat <= 0x200a) ||
  c.toNat = 0x2028 || c.toNat = 0x2029 || c.toNat = 0x202f ||
  c.toNat = 0x205f || c.toNat = 0x3000 || c.toNat = 0xfeff

/-- JS `.` (any char but the four line terminators). -/
def isDotChar (c : Char) : Bool :=
  !(c = '\n' || c = '\r' || c.toNat = 0x2028 || c.toNat = 0x2029)

/-- JS `\d`. -/
def isDigitChar (c : Char) : Bool :=
  '0' ≤ c && c ≤ '9'

/-- The `[^\\/]` class of the frame-name part. -/
def isNameChar (c : Char) : Bool :=
  !(c = '\\' || c = '/')

/-- JS `\S`. -/
def isNonWs (c : Char) : Bool :=
  !(isJsWs c)

/-- Case-insensitive character comparison (regex flag `i`). -/
def lowEq (c d : Char) : Bool :=
  c.toLower == d.toLower

/-- First success over an ordered candidate list (backtracking order). -/
def firstSome {α β : Type} : List α → (α → Option β) → Option β
  | [], _ => none
  | a :: as, f =>
    match f a with
    | some b => some b
    | none => firstSome as f

/-- Case-insensitive literal prefix match; returns the remainder. -/
def litCI : List Char → List Char → Option (List Char)
  | [], s => some s
  | c :: cs, d :: s => if lowEq c d then litCI cs s else none
  | _ :: _, [] => none

/-- Match `(\d+)(?::(\d+))?\)?\s*$`, returning the group-3 digits.
`(\d+)` is maximal-munch (no following piece can match a digit); the
optional `:(\d+)` and `)` are likewise forced when present. -/
def matchNumTail (s : List Char) : Option (List Char) :=
  let ds := s.takeWhile isDigitChar
  if ds.isEmpty then none
  else
    let r := s.dropWhile isDigitChar
    let r2 :=
      match r with
      | ':' :: r' =>
        let ds2 := r'.takeWhile isDigitChar
        if ds2.isEmpty then r else r'.dropWhile isDigitChar
      | _ => r
    let ok :=
      match r2 with
      | ')' :: r' => r'.all isJsWs
      | _ => r2.all isJsWs
    if ok then some ds else none

/-- Lazy `(.*?)` candidates: (consumed, remainder) pairs with the consumed
part all `.`-chars, shortest first. -/
def lazyCands (t : List Char) : List (List Char × List Char) :=
  let n := (t.takeWhile isDotChar).length
  (List.range (n + 1)).map fun i => (t.take i, t.drop i)

/-- Match `\(?(.*?):` + `matchNumTail`, returning (file chars, digits).
The optional `(` is preferred when present. -/
def matchFileTail (s : List Char) : Option (List Char × List Char) :=
  let core : List Char → Option (List Char × List Char) := fun t =>
    firstSome (lazyCands t) fun fr =>
      match fr.2 with
      | ':' :: r' => (matchNumTail r').map fun ds => (fr.1, ds)
      | _ => none
  match s with
  | '(' :: s' =>
    match core s' with
    | some x => some x
    | none => core s
  | _ => core s

/-- Remainders after `(?: \[as \S+\])?` in preference order: the taken
alternative (with `\S+` longest first, then `\]`) before the skipped one. -/
def asCands (r : List Char) : List (List Char) :=
  (match r with
   | ' ' :: '[' :: a :: s :: ' ' :: t =>
     if lowEq a 'a' && lowEq s 's' then
       let m := (t.takeWhile isNonWs).length
       ((List.range m).map fun i => m - i).filterMap fun j =>
         match t.drop j with
         | ']' :: rest => some rest
         | _ => none
     else []
   | _ => []) ++ [r]

/-- Remainders after `[^\\/]+(?: \[as \S+\])?` followed by the group's
trailing space, in preference order (`[^\\/]+` longest first). -/
def bodyCands (t : List Char) : List (List Char) :=
  let n := (t.takeWhile isNameChar).length
  ((List.range n).map fun i => n - i).flatMap fun j =>
    (asCands (t.drop j)).filterMap fun r2 =>
      match r2 with
      | ' ' :: r3 => some r3
      | _ => none

/-- Remainders after the whole optional name group
`(?:((?:\[object object\])?[^\\/]+(?: \[as \S+\])?) )?` in preference
order: with the `[object object]` literal first when it is present. -/
def nameCands (s : List Char) : List (List Char) :=
  (match litCI "[object object]".toList s with
   | some r => bodyCands r
   | none => []) ++ bodyCands s

/-- Match everything after the literal `at `: the optional name group is
preferred (all of its continuations before the name-less alternative). -/
def matchAfterAt (s : List Char) : Option (List Char × List Char) :=
  match firstSome (nameCands s) matchFileTail with
  | some x => some x
  | none => matchFileTail s

/-- Match one line against the Node stack-frame regex; on success build the
frame as the source does (`file: parts[2] || null`,
`lineNumber: parts[3] ? +parts[3] : null`). -/
def matchStackLine (line : List Char) : Option Frame :=
  let r1 := line.dropWhile isJsWs
  match r1 with
  | a :: t :: ' ' :: rest =>
    if lowEq a 'a' && lowEq t 't' then
      (matchAfterAt rest).map fun fd =>
        { file := if fd.1.isEmpty then none else some (String.mk fd.1)
          lineNumber := if fd.2.isEmpty then none else some (natOfDigits fd.2) }
    else none
  | _ => none

/-- The `parseStackTrace`: split on newlines, keep the lines that match, in
original order (the source's `reduce` with conditional `push`). -/
def parseStackTrace (stackString : String) : List Frame :=
  (splitOnNl stackString.toList).filterMap matchStackLine

/-! ## Failure diagnostics (`part_000` and `generate-report.ts`) -/

/-- Whether a frame matches the test's own file: `!frame.file` is false,
then `path.resolve(frame.file) === path.resolve(testFilePath)`. -/
def frameMatchesTestFile (cwd testFilePath : String) (frame : Frame) : Bool :=
  match frame.file with
  | none => false
  | some f => resolvePath cwd f == resolvePath cwd testFilePath

/-- The `extractLineNumber` (`part_000`): first frame whose resolved file equals
the resolved test file path; its line number, else `undefined`.  The
source wraps this in `try/catch` returning `undefined`; the embedding is
total, so no exception path arises. -/
def extractLineNumber (cwd : String) (trace testFilePath : String) : Option Nat :=
  let stackFrames := parseStackTrace trace
  let testFrame := stackFrames.find? (frameMatchesTestFile cwd testFilePath)
  testFrame.bind (·.lineNumber)

/-- JS truthiness of an optional string (`filter(Boolean)`): defined and
non-empty. -/
def truthyStr : Option String → Bool
  | none => false
  | some s => s ≠ ""

/-- The `Partial<CtrfTest>` returned by `extractFailureDetails`. -/
structure FailureDetails where
  message : Option String := none
  trace : Option String := none
  line : Option Nat := none
deriving DecidableEq, Repr

/-- The `extractFailureDetails` (`part_000`): for a failed result, `message` is
the `'\n'`-join of the error messages, `trace` the `'\n\n'`-join of the
truthy stacks, and `line` is extracted when both `trace` and the module
id are truthy; otherwise the empty partial. -/
def extractFailureDetails (cwd : String) (testCase : TestCase) : FailureDetails :=
  let testResult := testCase.result
  if testResult.state = "failed" then
    let message := String.intercalate "\n" (testResult.errors.map (·.message))
    let trace := String.intercalate "\n\n"
      (((testResult.errors.map (·.stack)).filter truthyStr).map (·.getD ""))
    let line :=
      if trace ≠ "" ∧ testCase.moduleId ≠ "" then
        extractLineNumber cwd trace testCase.moduleId
      else none
    { message := some message, trace := some trace, line := line }
  else {}

/-- The `extractFailureDetails` (`src/generate-report.ts`): identical except
that no line number is extracted. -/
def extractFailureDetailsTs (testCase : TestCase) : FailureDetails :=
  let testResult := testCase.result
  if testResult.state = "failed" then
    let message := String.intercalate "\n" (testResult.errors.map (·.message))
    let trace := String.intercalate "\n\n"
      (((testResult.errors.map (·.stack)).filter truthyStr).map (·.getD ""))
    { message := some message, trace := some trace }
  else {}

/-! ## Status mapping and record construction -/

/-- The `mapStatus`: the `switch` over the native state string. -/
def mapStatus (state : String) : CtrfTestState :=
  if state = "passed" then .passed
  else if state = "failed" then .failed
  else if state = "skipped" then .skipped
  else if state = "pending" then .pending
  else .other

/-- The record built by `updateCtrfTestResultsFromTestResult` (`part_000`):
required core, then the optional diagnostics group unless minimal mode
(`line` only when the extracted line is defined). -/
def ctrfTestOf (cfg : ResolvedConfig) (cwd : String) (testCase : TestCase) : CtrfTest :=
  let base : CtrfTest :=
    { name := testCase.fullName
      duration := (testCase.diagnostic.map (·.duration)).getD 0
      status := mapStatus testCase.result.state }
  if cfg.minimal = false then
    let failureDetails := extractFailureDetails cwd testCase
    { base with
      message := failureDetails.message
      trace := failureDetails.trace
      line := failureDetails.line
      rawStatus := some testCase.result.state
      type := some cfg.testType
      filePath := some testCase.moduleId
      retries := some ((testCase.diagnostic.map (·.retryCount)).getD 0)
      flaky := some ((testCase.diagnostic.map (·.flaky)).getD false)
      suite := some testCase.fullName }
  else base

/-- The record built by `updateCtrfTestResultsFromTestResult`
(`src/generate-report.ts`): same fields, but `extractFailureDetails`
there never yields a line, so `line` is never set.  (That copy calls
`extractFailureDetails` twice — once for `message`, once for `trace` —
which is observationally identical since the function is pure.) -/
def ctrfTestOfTs (cfg : ResolvedConfig) (testCase : TestCase) : CtrfTest :=
  let base : CtrfTest :=
    { name := testCase.fullName
      duration := (testCase.diagnostic.map (·.duration)).getD 0
      status := mapStatus testCase.result.state }
  if cfg.minimal = false then
    { base with
      message := (extractFailureDetailsTs testCase).message
      trace := (extractFailureDetailsTs testCase).trace
      rawStatus := some testCase.result.state
      type := some cfg.testType
      filePath := some testCase.moduleId
      retries := some ((testCase.diagnostic.map (·.retryCount)).getD 0)
      flaky := some ((testCase.diagnostic.map (·.flaky)).getD false)
      suite := some testCase.fullName }
  else base

/-! ## Environment metadata -/

/-- One `if (options.x !== undefined) env.x = options.x` step. -/
def setEnvField (cur opt : Option String) : Option String :=
  match opt with
  | some v => some v
  | none => cur

/-- The `setEnvironmentDetails`: copy every supplied environment option into
the environment object, field by field. -/
def setEnvironmentDetails (env : CtrfEnvironment) (cfg : ResolvedConfig) : CtrfEnvironment :=
  { appName := setEnvField env.appName cfg.appName
    appVersion := setEnvField env.appVersion cfg.appVersion
    osPlatform := setEnvField env.osPlatform cfg.osPlatform
    osRelease := setEnvField env.osRelease cfg.osRelease
    osVersion := setEnvField env.osVersion cfg.osVersion
    buildName := setEnvField env.buildName cfg.buildName
    buildNumber := setEnvField env.buildNumber cfg.buildNumber
    buildUrl := setEnvField env.buildUrl cfg.buildUrl
    repositoryName := setEnvField env.repositoryName cfg.repositoryName
    repositoryUrl := setEnvField env.repositoryUrl cfg.repositoryUrl
    branchName := setEnvField env.branchName cfg.branchName
    testEnvironment := setEnvField env.testEnvironment cfg.testEnvironment }

/-- The `hasEnvironmentDetails`: `Object.keys(environment).length > 0`; the
object only ever holds keys set from defined options, so this is "some
field is present". -/
def hasEnvironmentDetails (environment : CtrfEnvironment) : Bool :=
  environment.appName.isSome || environment.appVersion.isSome ||
  environment.osPlatform.isSome || environment.osRelease.isSome ||
  environment.osVersion.isSome || environment.buildName.isSome ||
  environment.buildNumber.isSome || environment.buildUrl.isSome ||
  environment.repositoryName.isSome || environment.repositoryUrl.isSome ||
  environment.branchName.isSome || environment.testEnvironment.isSome

/-! ## Reporter state and lifecycle -/

/-- The adapter instance: resolved options, normalized filename, the
environment object, and the report document (`results`). -/
structure ReporterState where
  config : ResolvedConfig
  filename : String
  ctrfEnvironment : CtrfEnvironment
  results : Results
deriving DecidableEq, Repr

/-- The constructor: resolve options, initialize the report with zeroed
summary and empty tests, empty environment, and normalize the filename
(directory creation is a file-system side effect with no state). -/
def initReporter (reporterOptions : ReporterConfigOptions) : ReporterState :=
  let cfg := resolveConfig reporterOptions
  { config := cfg
    filename := setFilename cfg.outputFile
    ctrfEnvironment := {}
    results :=
      { toolName := "vitest"
        summary :=
          { tests := 0, passed := 0, failed := 0, pending := 0
            skipped := 0, other := 0, start := 0, stop := 0 }
        tests := []
        environment := none } }

/-- The `onTestRunStart`: set `summary.start`, populate the environment object
from the options, attach it to the report iff non-empty. -/
def onTestRunStart (now : Nat) (st : ReporterState) : ReporterState :=
  let env := setEnvironmentDetails st.ctrfEnvironment st.config
  let results := { st.results with summary := { st.results.summary with start := now } }
  let results :=
    if hasEnvironmentDetails env then { results with environment := some env }
    else results
  { st with ctrfEnvironment := env, results := results }

/-- The `updateCtrfTestResultsFromTestResult`: build the record (via the given
copy's record builder) and push it onto `results.tests`. -/
def updateCtrfTestResultsFromTestResult
    (build : ResolvedConfig → TestCase → CtrfTest)
    (st : ReporterState) (testCase : TestCase) : ReporterState :=
  { st with results :=
      { st.results with tests := st.results.tests ++ [build st.config testCase] } }

/-- The per-status counter bump of `updateTotalsFromTestResult`
(`summary[ctrfStatus]++`). -/
def bumpCounter (s : Summary) : CtrfTestState → Summary
  | .passed => { s with passed := s.passed + 1 }
  | .failed => { s with failed := s.failed + 1 }
  | .skipped => { s with skipped := s.skipped + 1 }
  | .pending => { s with pending := s.pending + 1 }
  | .other => { s with other := s.other + 1 }

/-- The `updateTotalsFromTestResult`: bump the mapped status counter, then
`summary.tests++`. -/
def updateTotalsFromTestResult (st : ReporterState) (testCase : TestCase) : ReporterState :=
  let s := bumpCounter st.results.summary (mapStatus testCase.result.state)
  { st with results := { st.results with summary := { s with tests := s.tests + 1 } } }

/-- The `onTestCaseResult`: append the record, then update the totals. -/
def onTestCaseResult (build : ResolvedConfig → TestCase → CtrfTest)
    (st : ReporterState) (testCase : TestCase) : ReporterState :=
  updateTotalsFromTestResult (updateCtrfTestResultsFromTestResult build st testCase) testCase

/-! ## Run end and the write boundary -/

/-- Console output of the write boundary. -/
inductive ConsoleMsg where
  | log (text : String)
  | error (text : String)
deriving DecidableEq, Repr

/-- External collaborators at run end: `JSON.stringify(·, null, 2)` and
`fs.writeFileSync` (which either succeeds or throws an error value,
stringified here). -/
structure Host where
  stringify : Results → String
  fsWrite : String → String → Except String Unit

/-- The `path.join(outputDir, filename)` (modelled as slash concatenation). -/
def pathJoin (dir filename : String) : String :=
  dir ++ "/" ++ filename

/-- The `console.log` confirmation line, with `%s` substitution applied. -/
def successMsg (outputDir filename : String) : ConsoleMsg :=
  .log ("vitest-ctrf-json-reporter: successfully written ctrf json to "
    ++ outputDir ++ "/" ++ filename)

/-- The `console.error` line for a caught write failure. -/
def failureMsg (e : String) : ConsoleMsg :=
  .error ("Error writing ctrf json report:, " ++ e)

/-- The `writeReportToFile`: serialize, attempt the write inside `try/catch`,
emit exactly one console line either way; the report itself is not
modified and no exception escapes (the function is total). -/
def writeReportToFile (host : Host) (st : ReporterState) : List ConsoleMsg :=
  let filePath := pathJoin st.config.outputDir st.filename
  let str := host.stringify st.results
  match host.fsWrite filePath (str ++ "\n") with
  | .ok _ => [successMsg st.config.outputDir st.filename]
  | .error e => [failureMsg e]

/-- The `onTestRunEnd`: set `summary.stop`, then write the report. -/
def onTestRunEnd (host : Host) (now : Nat) (st : ReporterState) :
    ReporterState × List ConsoleMsg :=
  let st := { st with results :=
    { st.results with summary := { st.results.summary with stop := now } } }
  (st, writeReportToFile host st)

/-! ## Lifecycle event machine -/

/-- One host-runner lifecycle call. -/
inductive Event where
  | runStart (now : Nat)
  | testCase (tc : TestCase)
  | runEnd (now : Nat)

/-- One lifecycle step, threading console output. -/
def stepWith (build : ResolvedConfig → TestCase → CtrfTest) (host : Host) :
    ReporterState × List ConsoleMsg → Event → ReporterState × List ConsoleMsg
  | (st, out), .runStart now => (onTestRunStart now st, out)
  | (st, out), .testCase tc => (onTestCaseResult build st tc, out)
  | (st, out), .runEnd now =>
    let r := onTestRunEnd host now st
    (r.1, out ++ r.2)

/-- Process a whole sequence of lifecycle calls from a fresh instance. -/
def processRunWith (build : ResolvedConfig → TestCase → CtrfTest) (host : Host)
    (reporterOptions : ReporterConfigOptions) (events : List Event) :
    ReporterState × List ConsoleMsg :=
  events.foldl (stepWith build host) (initReporter reporterOptions, [])

/-- The `part_000` record builder at a fixed working directory. -/
def buildP0 (cwd : String) : ResolvedConfig → TestCase → CtrfTest :=
  fun cfg tc => ctrfTestOf cfg cwd tc

/-! ## Derived accessors and fixtures used in the statements below -/

/-- The `summary[ctrfStatus]`: the counter selected by a CTRF status. -/
def counterFor (s : Summary) : CtrfTestState → Nat
  | .passed => s.passed
  | .failed => s.failed
  | .skipped => s.skipped
  | .pending => s.pending
  | .other => s.other

/-- The sum of the five status counters. -/
def sumCounters (s : Summary) : Nat :=
  s.passed + s.failed + s.pending + s.skipped + s.other

/-- How many test cases of a list map to a given CTRF status. -/
def statusCount (tcs : List TestCase) (c : CtrfTestState) : Nat :=
  (tcs.filter (fun tc => mapStatus tc.result.state = c)).length

/-- The environment block holding exactly the supplied option fields. -/
def envFromOpts (o : ReporterConfigOptions) : CtrfEnvironment :=
  { appName := o.appName
    appVersion := o.appVersion
    osPlatform := o.osPlatform
    osRelease := o.osRelease
    osVersion := o.osVersion
    buildName := o.buildName
    buildNumber := o.buildNumber
    buildUrl := o.buildUrl
    repositoryName := o.repositoryName
    repositoryUrl := o.repositoryUrl
    branchName := o.branchName
    testEnvironment := o.testEnvironment }

/-- Whether at least one environment metadata option was supplied. -/
def anyEnvSupplied (o : ReporterConfigOptions) : Bool :=
  o.appName.isSome || o.appVersion.isSome ||
  o.osPlatform.isSome || o.osRelease.isSome ||
  o.osVersion.isSome || o.buildName.isSome ||
  o.buildNumber.isSome || o.buildUrl.isSome ||
  o.repositoryName.isSome || o.repositoryUrl.isSome ||
  o.branchName.isSome || o.testEnvironment.isSome

/-- A concrete host whose write succeeds. -/
def hostOk : Host :=
  { stringify := fun _ => "", fsWrite := fun _ _ => .ok () }

/-- The default configuration (no options supplied). -/
def defaultConfig : ResolvedConfig :=
  resolveConfig {}

/-- The default configuration with minimal mode on. -/
def minimalConfig : ResolvedConfig :=
  resolveConfig { minimal := some true }

/-- A passed test case. -/
def tcPassed : TestCase :=
  { fullName := "adds numbers"
    diagnostic := some { duration := 5, retryCount := 0, flaky := false }
    result := { state := "passed", errors := [] }
    moduleId := "/w/test.js" }

/-- A failed test case with two errors: messages `A`, `B`, where only the
first has a stack. -/
def tcAB : TestCase :=
  { fullName := "ab"
    diagnostic := none
    result :=
      { state := "failed"
        errors :=
          [ { message := "A", stack := some "at x (/t/f.js:10:2)" }
          , { message := "B", stack := none } ] }
    moduleId := "" }

/-- A failed test case whose single stack frame references the test's own
file at line 42. -/
def tcFailed42 : TestCase :=
  { fullName := "subtracts"
    diagnostic := none
    result :=
      { state := "failed"
        errors := [ { message := "boom", stack := some "at t (/w/test.js:42:3)" } ] }
    moduleId := "/w/test.js" }

/-- A stack trace with a frame in the test's own file at line 42 and a
frame in a different file at line 7. -/
def traceOwn42 : String :=
  "at a (/w/test.js:42:3)\nat b (/w/other.js:7:1)"

/-- Erase the `line` field of a record (the only field the
`generate-report.ts` copy never sets). -/
def eraseLine (t : CtrfTest) : CtrfTest :=
  { t with line := none }

/-- Erase the `line` field of every record of a report. -/
def eraseLineResults (r : Results) : Results :=
  { r with tests := r.tests.map eraseLine }

/-! ## Helper lemmas -/

theorem setEnvField_none (o : Option String) : setEnvField none o = o := by
  cases o <;> rfl

theorem bumpCounter_tests (s : Summary) (c : CtrfTestState) :
    (bumpCounter s c).tests = s.tests := by
  cases c <;> rfl

theorem bumpCounter_start (s : Summary) (c : CtrfTestState) :
    (bumpCounter s c).start = s.start := by
  cases c <;> rfl

theorem bumpCounter_stop (s : Summary) (c : CtrfTestState) :
    (bumpCounter s c).stop = s.stop := by
  cases c <;> rfl

theorem bumpCounter_sum (s : Summary) (c : CtrfTestState) :
    sumCounters (bumpCounter s c) = sumCounters s + 1 := by
  cases c <;> simp [bumpCounter, sumCounters] <;> omega

theorem bumpCounter_self (s : Summary) (c : CtrfTestState) :
    counterFor (bumpCounter s c) c = counterFor s c + 1 := by
  cases c <;> rfl

theorem bumpCounter_other (s : Summary) (c c' : CtrfTestState) (h : c' ≠ c) :
    counterFor (bumpCounter s c) c' = counterFor s c' := by
  cases c <;> cases c' <;> simp_all [bumpCounter, counterFor]

theorem counterFor_setTests (s : Summary) (n : Nat) (c : CtrfTestState) :
    counterFor { s with tests := n } c = counterFor s c := by
  cases c <;> rfl

theorem onTestCaseResult_config (build : ResolvedConfig → TestCase → CtrfTest)
    (st : ReporterState) (tc : TestCase) :
    (onTestCaseResult build st tc).config = st.config := rfl

theorem onTestCaseResult_filename (build : ResolvedConfig → TestCase → CtrfTest)
    (st : ReporterState) (tc : TestCase) :
    (onTestCaseResult build st tc).filename = st.filename := rfl

theorem onTestCaseResult_env (build : ResolvedConfig → TestCase → CtrfTest)
    (st : ReporterState) (tc : TestCase) :
    (onTestCaseResult build st tc).ctrfEnvironment = st.ctrfEnvironment := rfl

theorem onTestCaseResult_environment (build : ResolvedConfig → TestCase → CtrfTest)
    (st : ReporterState) (tc : TestCase) :
    (onTestCaseResult build st tc).results.environment = st.results.environment := rfl

theorem onTestCaseResult_toolName (build : ResolvedConfig → TestCase → CtrfTest)
    (st : ReporterState) (tc : TestCase) :
    (onTestCaseResult build st tc).results.toolName = st.results.toolName := rfl

theorem onTestCaseResult_tests (build : ResolvedConfig → TestCase → CtrfTest)
    (st : ReporterState) (tc : TestCase) :
    (onTestCaseResult build st tc).results.tests
      = st.results.tests ++ [build st.config tc] := rfl

theorem onTestCaseResult_summary_tests (build : ResolvedConfig → TestCase → CtrfTest)
    (st : ReporterState) (tc : TestCase) :
    (onTestCaseResult build st tc).results.summary.tests
      = st.results.summary.tests + 1 := by
  simp [onTestCaseResult, updateTotalsFromTestResult, updateCtrfTestResultsFromTestResult,
    bumpCounter_tests]

theorem onTestCaseResult_start (build : ResolvedConfig → TestCase → CtrfTest)
    (st : ReporterState) (tc : TestCase) :
    (onTestCaseResult build st tc).results.summary.start
      = st.results.summary.start := by
  simp [onTestCaseResult, updateTotalsFromTestResult, updateCtrfTestResultsFromTestResult,
    bumpCounter_start]

theorem onTestCaseResult_stop (build : ResolvedConfig → TestCase → CtrfTest)
    (st : ReporterState) (tc : TestCase) :
    (onTestCaseResult build st tc).results.summary.stop
      = st.results.summary.stop := by
  simp [onTestCaseResult, updateTotalsFromTestResult, updateCtrfTestResultsFromTestResult,
    bumpCounter_stop]

theorem onTestCaseResult_sum (build : ResolvedConfig → TestCase → CtrfTest)
    (st : ReporterState) (tc : TestCase) :
    sumCounters (onTestCaseResult build st tc).results.summary
      = sumCounters st.results.summary + 1 := by
  have h : sumCounters { bumpCounter st.results.summary (mapStatus tc.result.state) with
      tests := (bumpCounter st.results.summary (mapStatus tc.result.state)).tests + 1 }
      = sumCounters (bumpCounter st.results.summary (mapStatus tc.result.state)) := rfl
  simp [onTestCaseResult, updateTotalsFromTestResult, updateCtrfTestResultsFromTestResult, h,
    bumpCounter_sum]

theorem onTestCaseResult_counter_self (build : ResolvedConfig → TestCase → CtrfTest)
    (st : ReporterState) (tc : TestCase) :
    counterFor (onTestCaseResult build st tc).results.summary (mapStatus tc.result.state)
      = counterFor st.results.summary (mapStatus tc.result.state) + 1 := by
  simp [onTestCaseResult, updateTotalsFromTestResult, updateCtrfTestResultsFromTestResult,
    counterFor_setTests, bumpCounter_self]

theorem onTestCaseResult_counter_other (build : ResolvedConfig → TestCase → CtrfTest)
    (st : ReporterState) (tc : TestCase) (c : CtrfTestState)
    (h : c ≠ mapStatus tc.result.state) :
    counterFor (onTestCaseResult build st tc).results.summary c
      = counterFor st.results.summary c := by
  simp [onTestCaseResult, updateTotalsFromTestResult, updateCtrfTestResultsFromTestResult,
    counterFor_setTests, bumpCounter_other _ _ _ h]

theorem onTestCaseResult_counter (build : ResolvedConfig → TestCase → CtrfTest)
    (st : ReporterState) (tc : TestCase) (c : CtrfTestState) :
    counterFor (onTestCaseResult build st tc).results.summary c
      = counterFor st.results.summary c
        + (if mapStatus tc.result.state = c then 1 else 0) := by
  by_cases h : c = mapStatus tc.result.state
  · subst h
    simp [onTestCaseResult_counter_self]
  · have h' : mapStatus tc.result.state = c ↔ False := by
      constructor
      · intro hh
        exact h hh.symm
      · intro hh
        exact hh.elim
    simp [onTestCaseResult_counter_other build st tc c h, h']

theorem statusCount_cons (tc : TestCase) (tcs : List TestCase) (c : CtrfTestState) :
    statusCount (tc :: tcs) c
      = (if mapStatus tc.result.state = c then 1 else 0) + statusCount tcs c := by
  by_cases h : mapStatus tc.result.state = c
  · simp [statusCount, List.filter_cons, h, Nat.add_comm]
  · simp [statusCount, List.filter_cons, h]

theorem stepWith_testCase (build : ResolvedConfig → TestCase → CtrfTest) (host : Host)
    (st : ReporterState) (out : List ConsoleMsg) (tc : TestCase) :
    stepWith build host (st, out) (Event.testCase tc) = (onTestCaseResult build st tc, out) := rfl

theorem fold_out (build : ResolvedConfig → TestCase → CtrfTest) (host : Host)
    (tcs : List TestCase) (st : ReporterState) (out : List ConsoleMsg) :
    ((tcs.map Event.testCase).foldl (stepWith build host) (st, out)).2 = out := by
  induction tcs generalizing st with
  | nil => rfl
  | cons tc tcs ih =>
    simp only [List.map_cons, List.foldl_cons, stepWith_testCase]
    exact ih (onTestCaseResult build st tc)

theorem fold_config (build : ResolvedConfig → TestCase → CtrfTest) (host : Host)
    (tcs : List TestCase) (st : ReporterState) (out : List ConsoleMsg) :
    ((tcs.map Event.testCase).foldl (stepWith build host) (st, out)).1.config = st.config := by
  induction tcs generalizing st with
  | nil => rfl
  | cons tc tcs ih =>
    simp only [List.map_cons, List.foldl_cons, stepWith_testCase]
    rw [ih (onTestCaseResult build st tc), onTestCaseResult_config]

theorem fold_filename (build : ResolvedConfig → TestCase → CtrfTest) (host : Host)
    (tcs : List TestCase) (st : ReporterState) (out : List ConsoleMsg) :
    ((tcs.map Event.testCase).foldl (stepWith build host) (st, out)).1.filename = st.filename := by
  induction tcs generalizing st with
  | nil => rfl
  | cons tc tcs ih =>
    simp only [List.map_cons, List.foldl_cons, stepWith_testCase]
    rw [ih (onTestCaseResult build st tc), onTestCaseResult_filename]

theorem fold_ctrfEnv (build : ResolvedConfig → TestCase → CtrfTest) (host : Host)
    (tcs : List TestCase) (st : ReporterState) (out : List ConsoleMsg) :
    ((tcs.map Event.testCase).foldl (stepWith build host) (st, out)).1.ctrfEnvironment
      = st.ctrfEnvironment := by
  induction tcs generalizing st with
  | nil => rfl
  | cons tc tcs ih =>
    simp only [List.map_cons, List.foldl_cons, stepWith_testCase]
    rw [ih (onTestCaseResult build st tc), onTestCaseResult_env]

theorem fold_environment (build : ResolvedConfig → TestCase → CtrfTest) (host : Host)
    (tcs : List TestCase) (st : ReporterState) (out : List ConsoleMsg) :
    ((tcs.map Event.testCase).foldl (stepWith build host) (st, out)).1.results.environment
      = st.results.environment := by
  induction tcs generalizing st with
  | nil => rfl
  | cons tc tcs ih =>
    simp only [List.map_cons, List.foldl_cons, stepWith_testCase]
    rw [ih (onTestCaseResult build st tc), onTestCaseResult_environment]

theorem fold_toolName (build : ResolvedConfig → TestCase → CtrfTest) (host : Host)
    (tcs : List TestCase) (st : ReporterState) (out : List ConsoleMsg) :
    ((tcs.map Event.testCase).foldl (stepWith build host) (st, out)).1.results.toolName
      = st.results.toolName := by
  induction tcs generalizing st with
  | nil => rfl
  | cons tc tcs ih =>
    simp only [List.map_cons, List.foldl_cons, stepWith_testCase]
    rw [ih (onTestCaseResult build st tc), onTestCaseResult_toolName]

theorem fold_tests (build : ResolvedConfig → TestCase → CtrfTest) (host : Host)
    (tcs : List TestCase) (st : ReporterState) (out : List ConsoleMsg) :
    ((tcs.map Event.testCase).foldl (stepWith build host) (st, out)).1.results.tests
      = st.results.tests ++ tcs.map (build st.config) := by
  induction tcs generalizing st with
  | nil => simp
  | cons tc tcs ih =>
    simp only [List.map_cons, List.foldl_cons, stepWith_testCase]
    rw [ih (onTestCaseResult build st tc), onTestCaseResult_tests, onTestCaseResult_config]
    simp

theorem fold_summary_tests (build : ResolvedConfig → TestCase → CtrfTest) (host : Host)
    (tcs : List TestCase) (st : ReporterState) (out : List ConsoleMsg) :
    ((tcs.map Event.testCase).foldl (stepWith build host) (st, out)).1.results.summary.tests
      = st.results.summary.tests + tcs.length := by
  induction tcs generalizing st with
  | nil => rfl
  | cons tc tcs ih =>
    simp only [List.map_cons, List.foldl_cons, stepWith_testCase]
    rw [ih (onTestCaseResult build st tc), onTestCaseResult_summary_tests]
    simp
    omega

theorem fold_counter (build : ResolvedConfig → TestCase → CtrfTest) (host : Host)
    (tcs : List TestCase) (st : ReporterState) (out : List ConsoleMsg) (c : CtrfTestState) :
    counterFor ((tcs.map Event.testCase).foldl (stepWith build host) (st, out)).1.results.summary c
      = counterFor st.results.summary c + statusCount tcs c := by
  induction tcs generalizing st with
  | nil => simp [statusCount]
  | cons tc tcs ih =>
    simp only [List.map_cons, List.foldl_cons, stepWith_testCase]
    rw [ih (onTestCaseResult build st tc), onTestCaseResult_counter, statusCount_cons]
    omega

theorem fold_sum (build : ResolvedConfig → TestCase → CtrfTest) (host : Host)
    (tcs : List TestCase) (st : ReporterState) (out : List ConsoleMsg) :
    sumCounters ((tcs.map Event.testCase).foldl (stepWith build host) (st, out)).1.results.summary
      = sumCounters st.results.summary + tcs.length := by
  induction tcs generalizing st with
  | nil => rfl
  | cons tc tcs ih =>
    simp only [List.map_cons, List.foldl_cons, stepWith_testCase]
    rw [ih (onTestCaseResult build st tc), onTestCaseResult_sum]
    simp
    omega

theorem fold_start (build : ResolvedConfig → TestCase → CtrfTest) (host : Host)
    (tcs : List TestCase) (st : ReporterState) (out : List ConsoleMsg) :
    ((tcs.map Event.testCase).foldl (stepWith build host) (st, out)).1.results.summary.start
      = st.results.summary.start := by
  induction tcs generalizing st with
  | nil => rfl
  | cons tc tcs ih =>
    simp only [List.map_cons, List.foldl_cons, stepWith_testCase]
    rw [ih (onTestCaseResult build st tc), onTestCaseResult_start]

theorem fold_stop (build : ResolvedConfig → TestCase → CtrfTest) (host : Host)
    (tcs : List TestCase) (st : ReporterState) (out : List ConsoleMsg) :
    ((tcs.map Event.testCase).foldl (stepWith build host) (st, out)).1.results.summary.stop
      = st.results.summary.stop := by
  induction tcs generalizing st with
  | nil => rfl
  | cons tc tcs ih =>
    simp only [List.map_cons, List.foldl_cons, stepWith_testCase]
    rw [ih (onTestCaseResult build st tc), onTestCaseResult_stop]

theorem onTestRunStart_config (now : Nat) (st : ReporterState) :
    (onTestRunStart now st).config = st.config := rfl

theorem onTestRunStart_filename (now : Nat) (st : ReporterState) :
    (onTestRunStart now st).filename = st.filename := rfl

theorem onTestRunStart_ctrfEnv (now : Nat) (st : ReporterState) :
    (onTestRunStart now st).ctrfEnvironment
      = setEnvironmentDetails st.ctrfEnvironment st.config := rfl

theorem onTestRunStart_tests (now : Nat) (st : ReporterState) :
    (onTestRunStart now st).results.tests = st.results.tests := by
  by_cases h : hasEnvironmentDetails (setEnvironmentDetails st.ctrfEnvironment st.config)
  · simp [onTestRunStart, h]
  · simp [onTestRunStart, h]

theorem onTestRunStart_summary (now : Nat) (st : ReporterState) :
    (onTestRunStart now st).results.summary
      = { st.results.summary with start := now } := by
  by_cases h : hasEnvironmentDetails (setEnvironmentDetails st.ctrfEnvironment st.config)
  · simp [onTestRunStart, h]
  · simp [onTestRunStart, h]

theorem onTestRunStart_environment (now : Nat) (st : ReporterState) :
    (onTestRunStart now st).results.environment
      = (if hasEnvironmentDetails (setEnvironmentDetails st.ctrfEnvironment st.config)
          then some (setEnvironmentDetails st.ctrfEnvironment st.config)
          else st.results.environment) := by
  by_cases h : hasEnvironmentDetails (setEnvironmentDetails st.ctrfEnvironment st.config)
  · simp [onTestRunStart, h]
  · simp [onTestRunStart, h]

theorem onTestRunStart_toolName (now : Nat) (st : ReporterState) :
    (onTestRunStart now st).results.toolName = st.results.toolName := by
  by_cases h : hasEnvironmentDetails (setEnvironmentDetails st.ctrfEnvironment st.config)
  · simp [onTestRunStart, h]
  · simp [onTestRunStart, h]

theorem writeReportToFile_len (host : Host) (st : ReporterState) :
    (writeReportToFile host st).length = 1 := by
  cases h : host.fsWrite (pathJoin st.config.outputDir st.filename)
      (host.stringify st.results ++ "\n") <;>
    simp [writeReportToFile, h]

theorem onTestRunEnd_state (host : Host) (now : Nat) (st : ReporterState) :
    (onTestRunEnd host now st).1
      = { st with results :=
          { st.results with summary := { st.results.summary with stop := now } } } := rfl

theorem onTestRunEnd_len (host : Host) (now : Nat) (st : ReporterState) :
    (onTestRunEnd host now st).2.length = 1 :=
  writeReportToFile_len host _

theorem setEnvironmentDetails_empty (cfg : ResolvedConfig) :
    setEnvironmentDetails {} cfg =
      { appName := cfg.appName
        appVersion := cfg.appVersion
        osPlatform := cfg.osPlatform
        osRelease := cfg.osRelease
        osVersion := cfg.osVersion
        buildName := cfg.buildName
        buildNumber := cfg.buildNumber
        buildUrl := cfg.buildUrl
        repositoryName := cfg.repositoryName
        repositoryUrl := cfg.repositoryUrl
        branchName := cfg.branchName
        testEnvironment := cfg.testEnvironment } := by
  simp [setEnvironmentDetails, setEnvField_none]

theorem setEnvironmentDetails_init (o : ReporterConfigOptions) :
    setEnvironmentDetails (initReporter o).ctrfEnvironment (initReporter o).config
      = envFromOpts o := by
  simp [initReporter, setEnvironmentDetails_empty, resolveConfig, envFromOpts]

theorem hasEnv_envFromOpts (o : ReporterConfigOptions) :
    hasEnvironmentDetails (envFromOpts o) = anyEnvSupplied o := rfl

theorem find?_append_first {α : Type} (p : α → Bool) (l1 : List α) (f : α) (l2 : List α)
    (hf : p f = true) (h1 : ∀ g ∈ l1, p g = false) :
    List.find? p (l1 ++ f :: l2) = some f := by
  induction l1 with
  | nil => simp [List.find?_cons, hf]
  | cons g l1 ih =>
    have hg : p g = false := h1 g (by simp)
    simp only [List.cons_append, List.find?_cons, hg]
    exact ih fun x hx => h1 x (by simp [hx])

theorem extractFailureDetailsTs_eq (cwd : String) (tc : TestCase) :
    extractFailureDetailsTs tc = { extractFailureDetails cwd tc with line := none } := by
  unfold extractFailureDetailsTs extractFailureDetails
  by_cases h : tc.result.state = "failed" <;> simp [h]

theorem ctrfTestOfTs_eq_aux (cfg : ResolvedConfig) (cwd : String) (tc : TestCase) :
    ctrfTestOfTs cfg tc = { ctrfTestOf cfg cwd tc with line := none } := by
  unfold ctrfTestOfTs ctrfTestOf
  by_cases h : cfg.minimal = false <;>
    simp [h, extractFailureDetailsTs_eq cwd]

theorem stepWith_runStart (build : ResolvedConfig → TestCase → CtrfTest) (host : Host)
    (p : ReporterState × List ConsoleMsg) (now : Nat) :
    stepWith build host p (Event.runStart now) = (onTestRunStart now p.1, p.2) := by
  obtain ⟨st, out⟩ := p
  rfl

theorem stepWith_runEnd (build : ResolvedConfig → TestCase → CtrfTest) (host : Host)
    (p : ReporterState × List ConsoleMsg) (now : Nat) :
    stepWith build host p (Event.runEnd now)
      = ((onTestRunEnd host now p.1).1, p.2 ++ (onTestRunEnd host now p.1).2) := by
  obtain ⟨st, out⟩ := p
  rfl

theorem stacks_filter_eq (l : List TestError) :
    ((l.map (·.stack)).filter truthyStr).map (·.getD "")
      = (l.filter (fun e => truthyStr e.stack)).map (fun e => e.stack.getD "") := by
  induction l with
  | nil => rfl
  | cons e l ih =>
    by_cases h : truthyStr e.stack
    · simp [List.filter_cons, h, ih]
    · simp [List.filter_cons, h, ih]

/-! ## Claim theorems -/

/-- Claim C1: — For every run of N test-case-completion calls, after run end
`summary.tests = N`, `tests.length = N`, and the five status counters sum
to N; and each completion call appends exactly one record and increments
`summary.tests` and exactly one status counter by one. -/
theorem run_totals_invariant
    (build : ResolvedConfig → TestCase → CtrfTest) (host : Host)
    (opts : ReporterConfigOptions) (t0 t1 : Nat) (tcs : List TestCase) :
    ((processRunWith build host opts
        (Event.runStart t0 :: tcs.map Event.testCase ++ [Event.runEnd t1])).1.results.tests.length
      = tcs.length) ∧
    ((processRunWith build host opts
        (Event.runStart t0 :: tcs.map Event.testCase ++ [Event.runEnd t1])).1.results.summary.tests
      = tcs.length) ∧
    (sumCounters (processRunWith build host opts
        (Event.runStart t0 :: tcs.map Event.testCase ++ [Event.runEnd t1])).1.results.summary
      = tcs.length) ∧
    (∀ (st : ReporterState) (tc : TestCase),
      (onTestCaseResult build st tc).results.tests = st.results.tests ++ [build st.config tc] ∧
      (onTestCaseResult build st tc).results.summary.tests = st.results.summary.tests + 1 ∧
      counterFor (onTestCaseResult build st tc).results.summary (mapStatus tc.result.state)
        = counterFor st.results.summary (mapStatus tc.result.state) + 1 ∧
      ∀ c : CtrfTestState, c ≠ mapStatus tc.result.state →
        counterFor (onTestCaseResult build st tc).results.summary c
          = counterFor st.results.summary c) := by
  refine ⟨?_, ?_, ?_, ?_⟩
  · simp only [processRunWith, List.foldl_cons, List.foldl_append, List.foldl_nil,
      stepWith_runStart, stepWith_runEnd, onTestRunEnd_state]
    rw [fold_tests]
    simp [onTestRunStart_tests, initReporter]
  · simp only [processRunWith, List.foldl_cons, List.foldl_append, List.foldl_nil,
      stepWith_runStart, stepWith_runEnd, onTestRunEnd_state]
    rw [fold_summary_tests]
    simp [onTestRunStart_summary, initReporter]
  · simp only [processRunWith, List.foldl_cons, List.foldl_append, List.foldl_nil,
      stepWith_runStart, stepWith_runEnd, onTestRunEnd_state]
    have h : ∀ s : Summary, sumCounters { s with stop := t1 } = sumCounters s := fun _ => rfl
    rw [h, fold_sum]
    simp [onTestRunStart_summary, initReporter, sumCounters]
  · intro st tc
    exact ⟨onTestCaseResult_tests build st tc,
      onTestCaseResult_summary_tests build st tc,
      onTestCaseResult_counter_self build st tc,
      fun c hc => onTestCaseResult_counter_other build st tc c hc⟩

/-- Claim C1 witness: — a concrete run of two test cases. -/
theorem run_totals_invariant_witness :
    ((processRunWith (buildP0 "/w") hostOk {}
        (Event.runStart 5 :: [tcPassed, tcFailed42].map Event.testCase
          ++ [Event.runEnd 9])).1.results.tests.length = 2) ∧
    ((processRunWith (buildP0 "/w") hostOk {}
        (Event.runStart 5 :: [tcPassed, tcFailed42].map Event.testCase
          ++ [Event.runEnd 9])).1.results.summary.tests = 2) ∧
    (sumCounters (processRunWith (buildP0 "/w") hostOk {}
        (Event.runStart 5 :: [tcPassed, tcFailed42].map Event.testCase
          ++ [Event.runEnd 9])).1.results.summary = 2) := by
  have h := run_totals_invariant (buildP0 "/w") hostOk {} 5 9 [tcPassed, tcFailed42]
  exact ⟨h.1, h.2.1, h.2.2.1⟩

/-- Claim C2: — `mapStatus` is total and deterministic: every native status
string yields one of the five outcomes, the four recognized strings map
to themselves, and every other string maps to `other`. -/
theorem mapStatus_total (state : String) :
    (mapStatus state = .passed ∨ mapStatus state = .failed ∨ mapStatus state = .skipped ∨
      mapStatus state = .pending ∨ mapStatus state = .other) ∧
    (mapStatus "passed" = .passed ∧ mapStatus "failed" = .failed ∧
      mapStatus "skipped" = .skipped ∧ mapStatus "pending" = .pending) ∧
    (state ≠ "passed" → state ≠ "failed" → state ≠ "skipped" → state ≠ "pending" →
      mapStatus state = .other) := by
  refine ⟨?_, ⟨rfl, rfl, rfl, rfl⟩, ?_⟩
  · unfold mapStatus
    split
    · exact Or.inl rfl
    · split
      · exact Or.inr (Or.inl rfl)
      · split
        · exact Or.inr (Or.inr (Or.inl rfl))
        · split
          · exact Or.inr (Or.inr (Or.inr (Or.inl rfl)))
          · exact Or.inr (Or.inr (Or.inr (Or.inr rfl)))
  · intro h1 h2 h3 h4
    simp [mapStatus, h1, h2, h3, h4]

/-- Claim C2 witness: — an unrecognized native status maps to `other`. -/
theorem mapStatus_total_witness : mapStatus "interrupted" = .other :=
  (mapStatus_total "interrupted").2.2 (by decide) (by decide) (by decide) (by decide)

/-- Claim C3 counterexample: — for a passed test with minimal mode off, the
appended record's `message` and `trace` are NOT the empty string (they
are absent: the code assigns the `undefined` fields of the empty partial
returned by `extractFailureDetails`). -/
theorem message_empty_when_not_failed_counterexample :
    ¬ ((ctrfTestOf defaultConfig "/w" tcPassed).message = some "" ∧
       (ctrfTestOf defaultConfig "/w" tcPassed).trace = some "") := by
  decide

/-- Claim C3 (amended): — for every completed test case whose native state is
not `failed`, with minimal mode off, the appended record's `message` and
`trace` fields are absent (`undefined`, omitted from the JSON), in both
source copies. -/
theorem message_trace_absent_when_not_failed (cfg : ResolvedConfig) (cwd : String)
    (tc : TestCase) (hstate : tc.result.state ≠ "failed") (hmin : cfg.minimal = false) :
    (ctrfTestOf cfg cwd tc).message = none ∧ (ctrfTestOf cfg cwd tc).trace = none ∧
    (ctrfTestOfTs cfg tc).message = none ∧ (ctrfTestOfTs cfg tc).trace = none := by
  unfold ctrfTestOf ctrfTestOfTs extractFailureDetails extractFailureDetailsTs
  simp [hstate, hmin]

/-- Claim C3 witness: — the amended claim at a concrete passed test. -/
theorem message_trace_absent_when_not_failed_witness :
    (ctrfTestOf defaultConfig "/w" tcPassed).message = none ∧
    (ctrfTestOf defaultConfig "/w" tcPassed).trace = none := by
  have h := message_trace_absent_when_not_failed defaultConfig "/w" tcPassed
    (by decide) (by decide)
  exact ⟨h.1, h.2.1⟩

/-- Claim C4: — for every failed test case, `message` is the newline-joined
concatenation of every error's message in order, and `trace` is the
blank-line-joined concatenation of the stack texts of exactly those
errors that have a (truthy) stack, in order; the `generate-report.ts`
copy extracts the same message and trace. -/
theorem extractFailureDetails_failed (cwd : String) (tc : TestCase)
    (h : tc.result.state = "failed") :
    (extractFailureDetails cwd tc).message
      = some (String.intercalate "\n" (tc.result.errors.map (·.message))) ∧
    (extractFailureDetails cwd tc).trace
      = some (String.intercalate "\n\n"
          ((tc.result.errors.filter (fun e => truthyStr e.stack)).map
            (fun e => e.stack.getD ""))) ∧
    (extractFailureDetailsTs tc).message = (extractFailureDetails cwd tc).message ∧
    (extractFailureDetailsTs tc).trace = (extractFailureDetails cwd tc).trace := by
  have e1 : (extractFailureDetails cwd tc).message
      = some (String.intercalate "\n" (tc.result.errors.map (·.message))) := by
    unfold extractFailureDetails
    simp [h]
  have e2 : (extractFailureDetails cwd tc).trace
      = some (String.intercalate "\n\n"
          (((tc.result.errors.map (·.stack)).filter truthyStr).map (·.getD ""))) := by
    unfold extractFailureDetails
    simp [h]
  refine ⟨e1, ?_, ?_, ?_⟩
  · rw [e2, stacks_filter_eq]
  · rw [extractFailureDetailsTs_eq cwd]
  · rw [extractFailureDetailsTs_eq cwd]

/-- Claim C4 witness: — two errors with messages `A`, `B` where only the first
has a stack: `message = "A\nB"`, `trace` is the first stack only. -/
theorem extractFailureDetails_failed_witness :
    (extractFailureDetails "/w" tcAB).message = some "A\nB" ∧
    (extractFailureDetails "/w" tcAB).trace = some "at x (/t/f.js:10:2)" := by
  have h := extractFailureDetails_failed "/w" tcAB rfl
  exact ⟨h.1.trans (by decide), h.2.1.trans (by decide)⟩

/-- Claim C5: — line resolution returns the line number of the first parsed
frame (in original order) whose resolved file path equals the resolved
test file path, and yields no line number when no frame matches; being a
total function, it never raises. -/
theorem extractLineNumber_first_match (cwd trace testFilePath : String) :
    (∀ (l1 : List Frame) (f : Frame) (l2 : List Frame),
      parseStackTrace trace = l1 ++ f :: l2 →
      frameMatchesTestFile cwd testFilePath f = true →
      (∀ g ∈ l1, frameMatchesTestFile cwd testFilePath g = false) →
      extractLineNumber cwd trace testFilePath = f.lineNumber) ∧
    ((∀ g ∈ parseStackTrace trace, frameMatchesTestFile cwd testFilePath g = false) →
      extractLineNumber cwd trace testFilePath = none) := by
  constructor
  · intro l1 f l2 hp hf h1
    simp only [extractLineNumber]
    rw [hp, find?_append_first _ l1 f l2 hf h1]
    rfl
  · intro hall
    simp only [extractLineNumber]
    rw [List.find?_eq_none.mpr fun x hx => by simp [hall x hx]]
    rfl

/-- Claim C5 witness: — one frame referencing the test's own file at line 42,
another frame a different file at line 7: the result is 42. -/
theorem extractLineNumber_first_match_witness :
    extractLineNumber "/w" traceOwn42 "/w/test.js" = some 42 :=
  (extractLineNumber_first_match "/w" traceOwn42 "/w/test.js").1
    [] { file := some "/w/test.js", lineNumber := some 42 }
    [{ file := some "/w/other.js", lineNumber := some 7 }]
    (by decide) (by decide) (by simp)

theorem Results.extEq (r1 r2 : Results) (h1 : r1.toolName = r2.toolName)
    (h2 : r1.summary = r2.summary) (h3 : r1.tests = r2.tests)
    (h4 : r1.environment = r2.environment) : r1 = r2 := by
  cases r1
  cases r2
  simp_all

theorem eraseLine_ctrfTestOf (cfg : ResolvedConfig) (cwd : String) (tc : TestCase) :
    eraseLine (ctrfTestOf cfg cwd tc) = ctrfTestOfTs cfg tc :=
  (ctrfTestOfTs_eq_aux cfg cwd tc).symm

theorem onTestCaseResult_summary (build : ResolvedConfig → TestCase → CtrfTest)
    (st : ReporterState) (tc : TestCase) :
    (onTestCaseResult build st tc).results.summary
      = { bumpCounter st.results.summary (mapStatus tc.result.state) with
          tests := (bumpCounter st.results.summary (mapStatus tc.result.state)).tests + 1 } := rfl

theorem onTestRunStart_results_rel (now : Nat) (stA stB : ReporterState)
    (hc : stA.config = stB.config) (he : stA.ctrfEnvironment = stB.ctrfEnvironment)
    (hr : stA.results = eraseLineResults stB.results) :
    (onTestRunStart now stA).results = eraseLineResults (onTestRunStart now stB).results := by
  apply Results.extEq
  · rw [onTestRunStart_toolName, eraseLineResults, onTestRunStart_toolName, hr]
    rfl
  · rw [onTestRunStart_summary, eraseLineResults, onTestRunStart_summary, hr]
    rfl
  · rw [onTestRunStart_tests, eraseLineResults, onTestRunStart_tests, hr]
    rfl
  · rw [onTestRunStart_environment, eraseLineResults, onTestRunStart_environment, he, hc, hr]
    rfl

theorem onTestCaseResult_results_rel (cwd : String) (stA stB : ReporterState) (tc : TestCase)
    (hc : stA.config = stB.config)
    (hr : stA.results = eraseLineResults stB.results) :
    (onTestCaseResult ctrfTestOfTs stA tc).results
      = eraseLineResults (onTestCaseResult (buildP0 cwd) stB tc).results := by
  apply Results.extEq
  · rw [onTestCaseResult_toolName, eraseLineResults, onTestCaseResult_toolName, hr]
    rfl
  · rw [onTestCaseResult_summary, eraseLineResults, onTestCaseResult_summary, hr]
    rfl
  · rw [eraseLineResults, onTestCaseResult_tests, onTestCaseResult_tests, hr, hc]
    show (eraseLineResults stB.results).tests ++ [ctrfTestOfTs stB.config tc]
      = (stB.results.tests ++ [buildP0 cwd stB.config tc]).map eraseLine
    rw [List.map_append, eraseLineResults]
    show stB.results.tests.map eraseLine ++ [ctrfTestOfTs stB.config tc]
      = stB.results.tests.map eraseLine ++ [eraseLine (ctrfTestOf stB.config cwd tc)]
    rw [eraseLine_ctrfTestOf]
  · rw [onTestCaseResult_environment, eraseLineResults, onTestCaseResult_environment, hr]
    rfl

theorem onTestRunEnd_results_rel (hostA hostB : Host) (now : Nat) (stA stB : ReporterState)
    (hr : stA.results = eraseLineResults stB.results) :
    (onTestRunEnd hostA now stA).1.results
      = eraseLineResults (onTestRunEnd hostB now stB).1.results := by
  rw [onTestRunEnd_state, onTestRunEnd_state]
  apply Results.extEq
  · show stA.results.toolName = (eraseLineResults _).toolName
    rw [hr]
    rfl
  · show { stA.results.summary with stop := now } = (eraseLineResults _).summary
    rw [hr]
    rfl
  · show stA.results.tests = (eraseLineResults _).tests
    rw [hr]
    rfl
  · show stA.results.environment = (eraseLineResults _).environment
    rw [hr]
    rfl

theorem copies_sim (cwd : String) (hostA hostB : Host) (evs : List Event)
    (pA pB : ReporterState × List ConsoleMsg)
    (hc : pA.1.config = pB.1.config) (hf : pA.1.filename = pB.1.filename)
    (he : pA.1.ctrfEnvironment = pB.1.ctrfEnvironment)
    (hr : pA.1.results = eraseLineResults pB.1.results) :
    ((evs.foldl (stepWith ctrfTestOfTs hostA) pA).1.config
      = (evs.foldl (stepWith (buildP0 cwd) hostB) pB).1.config) ∧
    ((evs.foldl (stepWith ctrfTestOfTs hostA) pA).1.filename
      = (evs.foldl (stepWith (buildP0 cwd) hostB) pB).1.filename) ∧
    ((evs.foldl (stepWith ctrfTestOfTs hostA) pA).1.ctrfEnvironment
      = (evs.foldl (stepWith (buildP0 cwd) hostB) pB).1.ctrfEnvironment) ∧
    ((evs.foldl (stepWith ctrfTestOfTs hostA) pA).1.results
      = eraseLineResults (evs.foldl (stepWith (buildP0 cwd) hostB) pB).1.results) := by
  induction evs generalizing pA pB with
  | nil => exact ⟨hc, hf, he, hr⟩
  | cons e evs ih =>
    simp only [List.foldl_cons]
    cases e with
    | runStart now =>
      rw [stepWith_runStart, stepWith_runStart]
      exact ih _ _ hc hf (by rw [onTestRunStart_ctrfEnv, onTestRunStart_ctrfEnv, he, hc])
        (onTestRunStart_results_rel now pA.1 pB.1 hc he hr)
    | testCase tc =>
      have h1 : stepWith ctrfTestOfTs hostA pA (Event.testCase tc)
          = (onTestCaseResult ctrfTestOfTs pA.1 tc, pA.2) := by
        obtain ⟨st, out⟩ := pA
        rfl
      have h2 : stepWith (buildP0 cwd) hostB pB (Event.testCase tc)
          = (onTestCaseResult (buildP0 cwd) pB.1 tc, pB.2) := by
        obtain ⟨st, out⟩ := pB
        rfl
      rw [h1, h2]
      exact ih _ _ hc hf he (onTestCaseResult_results_rel cwd pA.1 pB.1 tc hc hr)
    | runEnd now =>
      rw [stepWith_runEnd, stepWith_runEnd]
      refine ih _ _ ?_ ?_ ?_ ?_
      · rw [onTestRunEnd_state, onTestRunEnd_state]
        exact hc
      · rw [onTestRunEnd_state, onTestRunEnd_state]
        exact hf
      · rw [onTestRunEnd_state, onTestRunEnd_state]
        exact he
      · exact onTestRunEnd_results_rel hostA hostB now pA.1 pB.1 hr

/-- Claim C6 counterexample: — the two copies are not behaviourally
equivalent: on a failed test whose stack references the test's own file,
`part_000` emits a `line` field that `generate-report.ts` never emits,
so the report documents differ. -/
theorem copies_equivalent_counterexample :
    (processRunWith ctrfTestOfTs hostOk {} [Event.testCase tcFailed42]).1.results
      ≠ (processRunWith (buildP0 "/w") hostOk {} [Event.testCase tcFailed42]).1.results := by
  decide

/-- Claim C6 (amended): — the two copies are equivalent except for the `line`
field: for every identical lifecycle sequence (and any hosts), the
`generate-report.ts` report equals the `part_000` report with the `line`
field of every record erased, and record-wise the `generate-report.ts`
record is exactly the `part_000` record without `line`. -/
theorem copies_equivalent_except_line (cwd : String) (hostA hostB : Host)
    (opts : ReporterConfigOptions) (evs : List Event) :
    ((processRunWith ctrfTestOfTs hostA opts evs).1.results
      = eraseLineResults (processRunWith (buildP0 cwd) hostB opts evs).1.results) ∧
    (∀ (cfg : ResolvedConfig) (tc : TestCase),
      ctrfTestOfTs cfg tc = { ctrfTestOf cfg cwd tc with line := none }) := by
  constructor
  · exact (copies_sim cwd hostA hostB evs (initReporter opts, []) (initReporter opts, [])
      rfl rfl rfl rfl).2.2.2
  · exact fun cfg tc => ctrfTestOfTs_eq_aux cfg cwd tc

/-- Claim C7: — when minimal mode is on, every appended record (in either
copy) consists of only `name`, `duration`, `status`; all optional fields
are absent, for every test regardless of outcome. -/
theorem minimal_mode_only_required_fields (cfg : ResolvedConfig) (cwd : String)
    (tc : TestCase) (h : cfg.minimal = true) :
    ctrfTestOf cfg cwd tc =
      { name := tc.fullName
        duration := (tc.diagnostic.map (·.duration)).getD 0
        status := mapStatus tc.result.state } ∧
    ctrfTestOfTs cfg tc =
      { name := tc.fullName
        duration := (tc.diagnostic.map (·.duration)).getD 0
        status := mapStatus tc.result.state } := by
  unfold ctrfTestOf ctrfTestOfTs
  simp [h]

/-- Claim C7 witness: — a failed test in minimal mode keeps only the three
required fields. -/
theorem minimal_mode_only_required_fields_witness :
    ctrfTestOf minimalConfig "/w" tcFailed42 =
      { name := "subtracts", duration := 0, status := .failed } := by
  have h := minimal_mode_only_required_fields minimalConfig "/w" tcFailed42 rfl
  exact h.1.trans (by decide)

/-- Claim C8: — after run start the report has an environment block iff at
least one environment option was supplied at construction, and then the
block holds exactly the supplied fields; `summary.start` is set. -/
theorem environment_block_iff_supplied (o : ReporterConfigOptions) (now : Nat) :
    ((onTestRunStart now (initReporter o)).results.environment
      = (if anyEnvSupplied o then some (envFromOpts o) else none)) ∧
    (onTestRunStart now (initReporter o)).results.summary.start = now := by
  constructor
  · rw [onTestRunStart_environment, setEnvironmentDetails_init, hasEnv_envFromOpts]
    by_cases h : anyEnvSupplied o
    · simp [h]
    · simp [h, initReporter]
  · rw [onTestRunStart_summary]

/-- Claim C9: — at run end the write failure is caught at the write boundary:
the state changes only by setting `summary.stop`, exactly one console
line is emitted (the confirmation naming output directory and filename
on success, the error line on failure), and nothing propagates (the
operation is a total function). -/
theorem write_boundary_caught (host : Host) (now : Nat) (st : ReporterState) :
    ((onTestRunEnd host now st).1
      = { st with results :=
          { st.results with summary := { st.results.summary with stop := now } } }) ∧
    ((onTestRunEnd host now st).2
      = (match host.fsWrite (pathJoin st.config.outputDir st.filename)
            (host.stringify (onTestRunEnd host now st).1.results ++ "\n") with
         | .ok _ => [successMsg st.config.outputDir st.filename]
         | .error e => [failureMsg e])) ∧
    (onTestRunEnd host now st).2.length = 1 :=
  ⟨rfl, rfl, onTestRunEnd_len host now st⟩

theorem counterFor_setStart (s : Summary) (n : Nat) (c : CtrfTestState) :
    counterFor { s with start := n } c = counterFor s c := by
  cases c <;> rfl

theorem counterFor_setStop (s : Summary) (n : Nat) (c : CtrfTestState) :
    counterFor { s with stop := n } c = counterFor s c := by
  cases c <;> rfl

theorem fold_passed (build : ResolvedConfig → TestCase → CtrfTest) (host : Host)
    (tcs : List TestCase) (st : ReporterState) (out : List ConsoleMsg) :
    ((tcs.map Event.testCase).foldl (stepWith build host) (st, out)).1.results.summary.passed
      = st.results.summary.passed + statusCount tcs .passed :=
  fold_counter build host tcs st out .passed

theorem fold_failed (build : ResolvedConfig → TestCase → CtrfTest) (host : Host)
    (tcs : List TestCase) (st : ReporterState) (out : List ConsoleMsg) :
    ((tcs.map Event.testCase).foldl (stepWith build host) (st, out)).1.results.summary.failed
      = st.results.summary.failed + statusCount tcs .failed :=
  fold_counter build host tcs st out .failed

theorem fold_skipped (build : ResolvedConfig → TestCase → CtrfTest) (host : Host)
    (tcs : List TestCase) (st : ReporterState) (out : List ConsoleMsg) :
    ((tcs.map Event.testCase).foldl (stepWith build host) (st, out)).1.results.summary.skipped
      = st.results.summary.skipped + statusCount tcs .skipped :=
  fold_counter build host tcs st out .skipped

theorem fold_pending (build : ResolvedConfig → TestCase → CtrfTest) (host : Host)
    (tcs : List TestCase) (st : ReporterState) (out : List ConsoleMsg) :
    ((tcs.map Event.testCase).foldl (stepWith build host) (st, out)).1.results.summary.pending
      = st.results.summary.pending + statusCount tcs .pending :=
  fold_counter build host tcs st out .pending

theorem fold_other (build : ResolvedConfig → TestCase → CtrfTest) (host : Host)
    (tcs : List TestCase) (st : ReporterState) (out : List ConsoleMsg) :
    ((tcs.map Event.testCase).foldl (stepWith build host) (st, out)).1.results.summary.other
      = st.results.summary.other + statusCount tcs .other :=
  fold_counter build host tcs st out .other

/-- Claim C10: — if run start never happens, the run still produces and
writes a report whose `summary.start` is the constructor value 0 and
which has no environment block, while the records and the remaining
counters are exactly those of the same run with run start. -/
theorem no_run_start_report (build : ResolvedConfig → TestCase → CtrfTest) (host : Host)
    (o : ReporterConfigOptions) (t0 t1 : Nat) (tcs : List TestCase) :
    ((processRunWith build host o
        (tcs.map Event.testCase ++ [Event.runEnd t1])).1.results.summary.start = 0) ∧
    ((processRunWith build host o
        (tcs.map Event.testCase ++ [Event.runEnd t1])).1.results.environment = none) ∧
    ((processRunWith build host o
        (tcs.map Event.testCase ++ [Event.runEnd t1])).1.results.tests
      = tcs.map (build (resolveConfig o))) ∧
    ((processRunWith build host o
        (tcs.map Event.testCase ++ [Event.runEnd t1])).1.results.tests
      = (processRunWith build host o
          (Event.runStart t0 :: tcs.map Event.testCase ++ [Event.runEnd t1])).1.results.tests) ∧
    ((processRunWith build host o
        (tcs.map Event.testCase ++ [Event.runEnd t1])).1.results.summary.tests
      = (processRunWith build host o
          (Event.runStart t0 :: tcs.map Event.testCase
            ++ [Event.runEnd t1])).1.results.summary.tests) ∧
    (∀ c : CtrfTestState,
      counterFor (processRunWith build host o
        (tcs.map Event.testCase ++ [Event.runEnd t1])).1.results.summary c
      = counterFor (processRunWith build host o
          (Event.runStart t0 :: tcs.map Event.testCase
            ++ [Event.runEnd t1])).1.results.summary c) ∧
    ((processRunWith build host o
        (tcs.map Event.testCase ++ [Event.runEnd t1])).1.results.summary.stop
      = (processRunWith build host o
          (Event.runStart t0 :: tcs.map Event.testCase
            ++ [Event.runEnd t1])).1.results.summary.stop) ∧
    ((processRunWith build host o
        (tcs.map Event.testCase ++ [Event.runEnd t1])).2.length = 1) := by
  refine ⟨?_, ?_, ?_, ?_, ?_, ?_, ?_, ?_⟩
  · simp only [processRunWith, List.foldl_cons, List.foldl_append, List.foldl_nil,
      stepWith_runStart, stepWith_runEnd, onTestRunEnd_state]
    rw [fold_start]
    rfl
  · simp only [processRunWith, List.foldl_cons, List.foldl_append, List.foldl_nil,
      stepWith_runStart, stepWith_runEnd, onTestRunEnd_state]
    rw [fold_environment]
    rfl
  · simp only [processRunWith, List.foldl_cons, List.foldl_append, List.foldl_nil,
      stepWith_runStart, stepWith_runEnd, onTestRunEnd_state]
    rw [fold_tests]
    rfl
  · simp only [processRunWith, List.foldl_cons, List.foldl_append, List.foldl_nil,
      stepWith_runStart, stepWith_runEnd, onTestRunEnd_state]
    rw [fold_tests, fold_tests, onTestRunStart_tests, onTestRunStart_config]
  · simp only [processRunWith, List.foldl_cons, List.foldl_append, List.foldl_nil,
      stepWith_runStart, stepWith_runEnd, onTestRunEnd_state]
    rw [fold_summary_tests, fold_summary_tests, onTestRunStart_summary]
  · intro c
    simp only [processRunWith, List.foldl_cons, List.foldl_append, List.foldl_nil,
      stepWith_runStart, stepWith_runEnd, onTestRunEnd_state]
    cases c
    · simp only [counterFor]
      rw [fold_passed, fold_passed, onTestRunStart_summary]
    · simp only [counterFor]
      rw [fold_failed, fold_failed, onTestRunStart_summary]
    · simp only [counterFor]
      rw [fold_skipped, fold_skipped, onTestRunStart_summary]
    · simp only [counterFor]
      rw [fold_pending, fold_pending, onTestRunStart_summary]
    · simp only [counterFor]
      rw [fold_other, fold_other, onTestRunStart_summary]
  · simp only [processRunWith, List.foldl_cons, List.foldl_append, List.foldl_nil,
      stepWith_runStart, stepWith_runEnd, onTestRunEnd_state]
  · simp only [processRunWith, List.foldl_cons, List.foldl_append, List.foldl_nil,
      stepWith_runStart, stepWith_runEnd]
    rw [List.length_append, fold_out, onTestRunEnd_len]
    rfl
